import Mathlib

/-!
Verification of the data-engine core of this repository against its
specification.  The JavaScript modules are shallowly embedded: JS values
become an inductive `Value`, JS objects become association lists in
insertion order, fallible code returns `Except JsError`, and the host
clock, id generator and `Date.parse` oracle are passed explicitly.
-/

/-- Model of the JS values handled by the data engine.  Numbers split into
integral (`Number.isInteger` true) and non-integral; the non-integral
constructor carries its decimal literal, which is all the engine ever
inspects.  `vnull` covers both `null` and `undefined`, which every code
path under verification treats identically.  `vdate` models a `Date`
instance opaquely. -/
inductive Value where
  | vnull : Value
  | vint : Int → Value
  | vfloat : String → Value
  | vbool : Bool → Value
  | vdate : Value
  | varr : List Value → Value
  | vobj : List (String × Value) → Value
  | vstr : String → Value

/-- A data row: a JS object, keys in insertion order. -/
abbrev Row := List (String × Value)

/-- JS property read `row[key]`: first binding wins; an absent key reads as
`undefined`, which the embedding folds into `vnull`. -/
def rowGet (row : Row) (key : String) : Value :=
  match row.find? (fun kv => kv.1 == key) with
  | some kv => kv.2
  | none => Value.vnull

/-- Association-list lookup used for the Map-typed registry state. -/
def lookupAssoc {α : Type} (l : List (String × α)) (key : String) : Option α :=
  match l.find? (fun kv => kv.1 == key) with
  | some kv => some kv.2
  | none => none

/-- `Map.set` / object property write: overwrite in place if the key exists
(keeping its position, as JS does), else append. -/
def setKey {α : Type} (l : List (String × α)) (key : String) (v : α) : List (String × α) :=
  if l.any (fun kv => kv.1 == key) then
    l.map (fun kv => if kv.1 == key then (kv.1, v) else kv)
  else l ++ [(key, v)]

/-- `Map.delete`: remove every binding of the key (a JS Map holds at most
one). -/
def eraseKey {α : Type} (l : List (String × α)) (key : String) : List (String × α) :=
  l.filter (fun kv => !(kv.1 == key))

/-- JS object spread `{...a, ...b}`: keys of `a` in order with the value
from `b` where `b` also binds them, then the keys only `b` binds, in the
order of `b`. -/
def mergeObj {α : Type} (a b : List (String × α)) : List (String × α) :=
  a.map (fun kv =>
    match lookupAssoc b kv.1 with
    | some v => (kv.1, v)
    | none => kv) ++
  b.filter (fun kv => !(a.any (fun kv2 => kv2.1 == kv.1)))

/-- Errors thrown by the embedded code.  `error` models `new Error(msg)`;
`referenceError` models an engine-raised `ReferenceError`. -/
inductive JsError where
  | error : String → JsError
  | referenceError : String → JsError

/-- Decimal rendering of an integer, as JS `String(n)` produces. -/
def intToString (n : Int) : String :=
  if n < 0 then "-" ++ toString n.natAbs else toString n.natAbs

/-- JS element stringification inside `Array.prototype.join`: null and
undefined render as the empty string, other leaves as `String(value)`.
Nested arrays and objects never occur in the verified call sites and are
rendered by their JS object tag. -/
def jsJoinElem : Value → String
  | Value.vnull => ""
  | Value.vint n => intToString n
  | Value.vfloat s => s
  | Value.vbool b => if b then "true" else "false"
  | Value.vdate => "[Date]"
  | Value.varr _ => "[Array]"
  | Value.vobj _ => "[object Object]"
  | Value.vstr s => s

/-- JS `String(value)` for the value shapes the engine stringifies.  A
`Date` prints an implementation-defined string; it is modelled opaquely
and never reached by the verified paths. -/
def jsString : Value → String
  | Value.vnull => "null"
  | Value.vint n => intToString n
  | Value.vfloat s => s
  | Value.vbool b => if b then "true" else "false"
  | Value.vdate => "[Date]"
  | Value.varr elems => String.intercalate "," (elems.map jsJoinElem)
  | Value.vobj _ => "[object Object]"
  | Value.vstr s => s

/-! ## Schema inference (src core schema module) -/

/-- A column descriptor as produced by inference: name, declared type tag
and nullability. -/
structure Column where
  name : String
  type : String
  nullable : Bool
deriving DecidableEq

/-- A schema: the ordered column descriptors. -/
structure Schema where
  columns : List Column
deriving DecidableEq

/-- The regex test from the source string-date branch: the leading shape
of an ISO-ish date literal, four digits then a dash or slash then a
digit. -/
def isoDateShape (s : String) : Bool :=
  match s.data with
  | a :: b :: c :: d :: e :: f :: _ =>
      a.isDigit && b.isDigit && c.isDigit && d.isDigit &&
        (e == '-' || e == '/') && f.isDigit
  | _ => false

/-- Source `SchemaInference.inferType`.  The branches follow the code in
order: null and undefined, numbers by integrality, booleans, Date
instances, arrays, remaining objects, then the string date heuristic.
The host `Date.parse` succeeding (not NaN) is abstracted as the oracle
`dp`. -/
def SchemaInference.inferType (dp : String → Bool) (value : Value) : String :=
  match value with
  | Value.vnull => "null"
  | Value.vint _ => "integer"
  | Value.vfloat _ => "float"
  | Value.vbool _ => "boolean"
  | Value.vdate => "date"
  | Value.varr _ => "array"
  | Value.vobj _ => "json"
  | Value.vstr s =>
      if dp s && decide (s.length > 6) && isoDateShape s then "date" else "string"

/-- Source `SchemaInference.infer`.  Empty input yields no columns;
otherwise the entries of the first row drive the column list, each column
typed from the first-row value and demoted to mixed when the set of types
over all rows has more than one element (`new Set(..).size > 1`, modelled
by `List.dedup`). -/
def SchemaInference.infer (dp : String → Bool) (data : List Row) : Schema :=
  match data with
  | [] => { columns := [] }
  | firstRow :: _ =>
    { columns := firstRow.map (fun kv =>
        let column : Column :=
          { name := kv.1, type := SchemaInference.inferType dp kv.2, nullable := true }
        let types :=
          (data.map (fun row => SchemaInference.inferType dp (rowGet row kv.1))).dedup
        if 1 < types.length then
          { name := kv.1, type := "mixed", nullable := true }
        else column) }

/-! ## Helper lemmas on association lists -/

theorem rowGet_of_mem : ∀ {row : Row} {kv : String × Value},
    (row.map Prod.fst).Nodup → kv ∈ row → rowGet row kv.1 = kv.2 := by
  intro row
  induction row with
  | nil => intro kv _ h; cases h
  | cons a tl ih =>
    intro kv hnd hm
    simp only [List.map_cons, List.nodup_cons] at hnd
    rcases List.mem_cons.mp hm with hm | hm
    · subst hm
      simp [rowGet, List.find?]
    · have hne : a.1 ≠ kv.1 := by
        intro h
        exact hnd.1 (h ▸ List.mem_map_of_mem Prod.fst hm)
      have : (a.1 == kv.1) = false := beq_eq_false_iff_ne.mpr hne
      have htl := ih hnd.2 hm
      simp only [rowGet, List.find?, this] at htl ⊢
      exact htl

/-- Claim C1: SchemaInference.infer returns no columns on empty input;
otherwise the columns are exactly the first-row keys in first-appearance
order, each column with a single distinct inferred type over all rows
keeping that type and any column with several distinct types demoted to
mixed with nullable true; and infer on the single row with a = 1 yields
the single integer column. -/
theorem schemaInference_infer_spec (dp : String → Bool) :
    SchemaInference.infer dp [] = { columns := [] } ∧
    (∀ (firstRow : Row) (rest : List Row),
      (SchemaInference.infer dp (firstRow :: rest)).columns.map Column.name =
        firstRow.map Prod.fst) ∧
    (∀ (firstRow : Row) (rest : List Row), (firstRow.map Prod.fst).Nodup →
      (SchemaInference.infer dp (firstRow :: rest)).columns =
        firstRow.map (fun kv =>
          let ts := ((firstRow :: rest).map
              (fun row => SchemaInference.inferType dp (rowGet row kv.1))).dedup
          if 1 < ts.length then { name := kv.1, type := "mixed", nullable := true }
          else { name := kv.1, type := ts.headD "", nullable := true })) ∧
    SchemaInference.infer dp [[("a", Value.vint 1)]] =
      { columns := [{ name := "a", type := "integer", nullable := true }] } := by
  refine ⟨rfl, ?_, ?_, rfl⟩
  · intro firstRow rest
    simp only [SchemaInference.infer, List.map_map]
    apply List.map_congr_left
    intro kv _
    simp only [Function.comp]
    split <;> rfl
  · intro firstRow rest hnd
    simp only [SchemaInference.infer]
    apply List.map_congr_left
    intro kv hkv
    set ts := ((firstRow :: rest).map
        (fun row => SchemaInference.inferType dp (rowGet row kv.1))).dedup with hts
    by_cases h : 1 < ts.length
    · simp [h]
    · simp only [h, if_false]
      have hmem : SchemaInference.inferType dp kv.2 ∈ ts := by
        rw [hts, List.mem_dedup, ← rowGet_of_mem hnd hkv]
        exact List.mem_map_of_mem _ (List.mem_cons_self firstRow rest)
      have hne : ts ≠ [] := by
        intro hnil
        rw [hnil] at hmem
        cases hmem
      have hlen : ts.length = 1 := by
        have h0 : 0 < ts.length := List.length_pos.mpr hne
        omega
      obtain ⟨t, ht⟩ := List.length_eq_one.mp hlen
      rw [ht] at hmem
      have : SchemaInference.inferType dp kv.2 = t := by
        cases hmem with
        | head => rfl
        | tail _ h2 => cases h2
      rw [ht, this]
      rfl

/-- Witness for Claim C1 at a concrete input: the nodup hypothesis on the
first-row keys discharged on the two-column row of the spec examples. -/
theorem schemaInference_infer_spec_witness :
    (SchemaInference.infer (fun _ => false)
        [[("a", Value.vint 1), ("b", Value.vbool true)],
          [("a", Value.vstr "x"), ("b", Value.vbool false)]]).columns =
      [{ name := "a", type := "mixed", nullable := true },
        { name := "b", type := "boolean", nullable := true }] := by
  have h := (schemaInference_infer_spec (fun _ => false)).2.2.1
    [("a", Value.vint 1), ("b", Value.vbool true)]
    [[("a", Value.vstr "x"), ("b", Value.vbool false)]] (by decide)
  rw [h]
  decide

/-- Claim C5 counterexample: the source classifies a composite value (a
non-null, non-Date, non-array object) as json, not structured, refuting
the claim at the concrete object with one field k = 1. -/
theorem inferType_object_counterexample :
    SchemaInference.inferType (fun _ => false) (Value.vobj [("k", Value.vint 1)]) = "json" ∧
    SchemaInference.inferType (fun _ => false) (Value.vobj [("k", Value.vint 1)]) ≠ "structured" := by
  exact ⟨rfl, by decide⟩

/-- Claim C5 amended: inferType follows the source priority order with
null and undefined as null, integral numbers as integer, non-integral
numbers as float, booleans as boolean, Date values as date, arrays as
array, remaining composite objects as json (not structured), and strings
as date exactly when the Date.parse oracle accepts them, they are longer
than six characters and they open with the ISO-ish shape, else string. -/
theorem inferType_priority_amended (dp : String → Bool) :
    SchemaInference.inferType dp Value.vnull = "null" ∧
    (∀ n, SchemaInference.inferType dp (Value.vint n) = "integer") ∧
    (∀ s, SchemaInference.inferType dp (Value.vfloat s) = "float") ∧
    (∀ b, SchemaInference.inferType dp (Value.vbool b) = "boolean") ∧
    SchemaInference.inferType dp Value.vdate = "date" ∧
    (∀ l, SchemaInference.inferType dp (Value.varr l) = "array") ∧
    (∀ fields, SchemaInference.inferType dp (Value.vobj fields) = "json") ∧
    (∀ s, SchemaInference.inferType dp (Value.vstr s) =
      if dp s && decide (s.length > 6) && isoDateShape s then "date" else "string") :=
  ⟨rfl, fun _ => rfl, fun _ => rfl, fun _ => rfl, rfl, fun _ => rfl, fun _ => rfl,
    fun _ => rfl⟩

/-! ## Schema validation (src core schema module) -/

/-- A single validation error entry: row index, column name, message. -/
structure VErr where
  row : Nat
  column : String
  error : String
deriving DecidableEq

/-- The report returned by validation.  The JS error rate is a float and
NaN when the row count is zero; the model keeps it as an optional
rational. -/
structure ValidationReport where
  valid : Bool
  errors : List VErr
  totalRows : Nat
  errorRate : Option ℚ

/-- JS `value === null || value === undefined`, on the embedded values. -/
def isNullish : Value → Bool
  | Value.vnull => true
  | _ => false

/-- Source `SchemaValidator.isCompatible`: exact type match, declared
mixed, or a null value against any declared type other than string. -/
def SchemaValidator.isCompatible (actual expected : String) : Bool :=
  if actual == expected then true
  else if expected == "mixed" then true
  else if actual == "null" && expected != "string" then true
  else false

/-- One inner-loop iteration of source `SchemaValidator.validate`: the
error (if any) a single column contributes on row `i`.  The null check
fires on a non-nullable column holding null or undefined; otherwise a
present value of an incompatible inferred type yields a type mismatch. -/
def SchemaValidator.checkCell (dp : String → Bool) (i : Nat) (row : Row)
    (col : Column) : Option VErr :=
  let value := rowGet row col.name
  if col.nullable == false && isNullish value then
    some { row := i, column := col.name, error := "required value is null" }
  else if !(isNullish value) then
    let actualType := SchemaInference.inferType dp value
    if !(SchemaValidator.isCompatible actualType col.type) then
      some { row := i, column := col.name,
             error := "type mismatch: expected " ++ col.type ++ ", got " ++ actualType }
    else none
  else none

/-- The row loop of source `SchemaValidator.validate`, accumulating the
errors of every row from index `start` upward. -/
def SchemaValidator.validateRows (dp : String → Bool) (columns : List Column) :
    List Row → Nat → List VErr
  | [], _ => []
  | row :: rest, i =>
      columns.filterMap (SchemaValidator.checkCell dp i row) ++
        SchemaValidator.validateRows dp columns rest (i + 1)

/-- Source `SchemaValidator.validate`: the full report.  The JS error
rate divides by the row count and is NaN on zero rows, modelled as
`none`. -/
def SchemaValidator.validate (dp : String → Bool) (schema : Schema)
    (data : List Row) : ValidationReport :=
  let errors := SchemaValidator.validateRows dp schema.columns data 0
  { valid := errors.isEmpty,
    errors := errors,
    totalRows := data.length,
    errorRate :=
      if data.length = 0 then none
      else some ((errors.length : ℚ) / (data.length : ℚ)) }

theorem isNullish_iff (v : Value) : isNullish v = true ↔ v = Value.vnull := by
  cases v <;> simp [isNullish]

theorem checkCell_eq_some (dp : String → Bool) (i : Nat) (row : Row)
    (col : Column) (e : VErr) :
    SchemaValidator.checkCell dp i row col = some e ↔
      ((col.nullable = false ∧ rowGet row col.name = Value.vnull ∧
        e = { row := i, column := col.name, error := "required value is null" }) ∨
      (rowGet row col.name ≠ Value.vnull ∧
        SchemaValidator.isCompatible
          (SchemaInference.inferType dp (rowGet row col.name)) col.type = false ∧
        e = { row := i, column := col.name,
              error := "type mismatch: expected " ++ col.type ++ ", got " ++
                SchemaInference.inferType dp (rowGet row col.name) })) := by
  have notTrue : ∀ {c : Bool}, c = false → ¬(c = true) := by
    intro c h ht
    rw [h] at ht
    cases ht
  simp only [SchemaValidator.checkCell]
  by_cases hvn : rowGet row col.name = Value.vnull
  · have hn : isNullish (rowGet row col.name) = true := (isNullish_iff _).mpr hvn
    by_cases hb : col.nullable = false
    · have hcond : (col.nullable == false && isNullish (rowGet row col.name)) = true := by
        rw [hn, hb]
        rfl
      rw [if_pos hcond]
      simp only [Option.some.injEq]
      constructor
      · intro h
        exact Or.inl ⟨hb, hvn, h.symm⟩
      · rintro (⟨_, _, he⟩ | ⟨hne, _, _⟩)
        · exact he.symm
        · exact absurd hvn hne
    · have hbt : col.nullable = true := by
        cases hcb : col.nullable
        · exact absurd hcb hb
        · rfl
      have hcond : (col.nullable == false && isNullish (rowGet row col.name)) = false := by
        rw [hbt]
        rfl
      rw [if_neg (notTrue hcond)]
      have hcond2 : (!(isNullish (rowGet row col.name))) = false := by
        rw [hn]
        rfl
      rw [if_neg (notTrue hcond2)]
      constructor
      · intro h
        cases h
      · rintro (⟨hb2, _, _⟩ | ⟨hne, _, _⟩)
        · exact absurd hb2 hb
        · exact absurd hvn hne
  · have hn : isNullish (rowGet row col.name) = false := by
      cases hni : isNullish (rowGet row col.name)
      · rfl
      · exact absurd ((isNullish_iff _).mp hni) hvn
    have hcond : (col.nullable == false && isNullish (rowGet row col.name)) = false := by
      rw [hn]
      exact Bool.and_false _
    rw [if_neg (notTrue hcond)]
    have hcond2 : (!(isNullish (rowGet row col.name))) = true := by
      rw [hn]
      rfl
    rw [if_pos hcond2]
    by_cases hc : SchemaValidator.isCompatible
        (SchemaInference.inferType dp (rowGet row col.name)) col.type = false
    · have hcond3 : (!(SchemaValidator.isCompatible
          (SchemaInference.inferType dp (rowGet row col.name)) col.type)) = true := by
        rw [hc]
        rfl
      rw [if_pos hcond3]
      simp only [Option.some.injEq]
      constructor
      · intro h
        exact Or.inr ⟨hvn, hc, h.symm⟩
      · rintro (⟨_, hvnull, _⟩ | ⟨_, _, he⟩)
        · exact absurd hvnull hvn
        · exact he.symm
    · have hct : SchemaValidator.isCompatible
          (SchemaInference.inferType dp (rowGet row col.name)) col.type = true := by
        cases hcc : SchemaValidator.isCompatible
            (SchemaInference.inferType dp (rowGet row col.name)) col.type
        · exact absurd hcc hc
        · rfl
      have hcond3 : (!(SchemaValidator.isCompatible
          (SchemaInference.inferType dp (rowGet row col.name)) col.type)) = false := by
        rw [hct]
        rfl
      rw [if_neg (notTrue hcond3)]
      constructor
      · intro h
        cases h
      · rintro (⟨_, hvnull, _⟩ | ⟨_, hc2, _⟩)
        · exact absurd hvnull hvn
        · exact absurd hc2 hc

theorem mem_validateRows (dp : String → Bool) (columns : List Column) :
    ∀ (data : List Row) (start : Nat) (e : VErr),
    e ∈ SchemaValidator.validateRows dp columns data start ↔
      ∃ j, ∃ h : j < data.length, ∃ col ∈ columns,
        SchemaValidator.checkCell dp (start + j) (data.get ⟨j, h⟩) col = some e := by
  intro data
  induction data with
  | nil => intro start e; simp [SchemaValidator.validateRows]
  | cons row rest ih =>
    intro start e
    simp only [SchemaValidator.validateRows, List.mem_append, List.mem_filterMap,
      ih (start + 1)]
    constructor
    · rintro (⟨col, hcol, hc⟩ | ⟨j, hj, col, hcol, hc⟩)
      · exact ⟨0, by simp, col, hcol, by simpa using hc⟩
      · refine ⟨j + 1, by simpa using hj, col, hcol, ?_⟩
        have harith : start + 1 + j = start + (j + 1) := by omega
        rw [harith] at hc
        simpa using hc
    · rintro ⟨j, hj, col, hcol, hc⟩
      cases j with
      | zero =>
        left
        exact ⟨col, hcol, by simpa using hc⟩
      | succ j =>
        right
        refine ⟨j, by simpa using hj, col, hcol, ?_⟩
        have harith : start + 1 + j = start + (j + 1) := by omega
        rw [harith]
        simpa using hc

/-- Claim C4: SchemaValidator.validate is total (never throws) and its
report satisfies: valid holds exactly when the error list is empty,
totalRows is the input row count, compatibility is exact match or
declared mixed or a null value against a non-string declared type, and
an error entry occurs exactly for a null or undefined value in a
non-nullable column (a required-value-is-null error) or a present value
whose inferred type is incompatible with the declared column type (a
type-mismatch error). -/
theorem schemaValidator_validate_spec (dp : String → Bool) (schema : Schema)
    (data : List Row) :
    ((SchemaValidator.validate dp schema data).valid = true ↔
      (SchemaValidator.validate dp schema data).errors = []) ∧
    (SchemaValidator.validate dp schema data).totalRows = data.length ∧
    (∀ a b, SchemaValidator.isCompatible a b = true ↔
      (a = b ∨ b = "mixed" ∨ (a = "null" ∧ b ≠ "string"))) ∧
    (∀ e, e ∈ (SchemaValidator.validate dp schema data).errors ↔
      ∃ j, ∃ h : j < data.length, ∃ col ∈ schema.columns,
        ((col.nullable = false ∧ rowGet (data.get ⟨j, h⟩) col.name = Value.vnull ∧
          e = { row := j, column := col.name, error := "required value is null" }) ∨
        (rowGet (data.get ⟨j, h⟩) col.name ≠ Value.vnull ∧
          SchemaValidator.isCompatible
            (SchemaInference.inferType dp (rowGet (data.get ⟨j, h⟩) col.name))
            col.type = false ∧
          e = { row := j, column := col.name,
                error := "type mismatch: expected " ++ col.type ++ ", got " ++
                  SchemaInference.inferType dp (rowGet (data.get ⟨j, h⟩) col.name) }))) := by
  refine ⟨?_, rfl, ?_, ?_⟩
  · simp [SchemaValidator.validate, List.isEmpty_iff]
  · intro a b
    simp only [SchemaValidator.isCompatible]
    by_cases h1 : a = b
    · simp [h1]
    · by_cases h2 : b = "mixed"
      · simp [h1, h2]
      · by_cases h3 : a = "null"
        · by_cases h4 : b = "string" <;> simp [h1, h2, h3, h4]
        · simp [h1, h2, h3]
  · intro e
    have h := mem_validateRows dp schema.columns data 0 e
    simp only [Nat.zero_add] at h
    rw [show (SchemaValidator.validate dp schema data).errors =
      SchemaValidator.validateRows dp schema.columns data 0 from rfl, h]
    constructor
    · rintro ⟨j, hj, col, hcol, hc⟩
      exact ⟨j, hj, col, hcol, (checkCell_eq_some dp j _ col e).mp hc⟩
    · rintro ⟨j, hj, col, hcol, hc⟩
      exact ⟨j, hj, col, hcol, (checkCell_eq_some dp j _ col e).mpr hc⟩

/-! ## Data Lake registry (src core datalake module) -/

/-- A `UnifiedData` instance: the dataset record held by the registry.
The `version` field is the constructor default string version tag; the
mutation counter the registry bumps lives under the key version inside
`metadata`. -/
structure UnifiedData where
  id : String
  name : String
  type : String
  timestamp : Nat
  schema : Schema
  data : List Row
  metadata : List (String × Value)
  version : String

/-- Registry state: the two Maps of the source `DataLake` (id to dataset
and id to lifecycle metadata).  The optional storage collaborator is an
external dependency out of scope of the spec and carries no observable
state here. -/
structure DataLake where
  name : String
  datasets : List (String × UnifiedData)
  metadata : List (String × (List (String × Value)))

/-- The options argument of `DataLake.create`. -/
structure CreateOptions where
  type : Option String := none
  schema : Option Schema := none
  metadata : List (String × Value) := []

/-- The input of `DataLake.create`: raw rows or an already built
`UnifiedData` (the instanceof branch of the source). -/
inductive CreateInput where
  | rows : List Row → CreateInput
  | unified : UnifiedData → CreateInput

/-- Source `DataLake.create`: build a `UnifiedData` from raw rows (or
take the given one), ensure a non-empty id, store it, and record the
lifecycle metadata entry with createdAt set to the clock, updatedAt to
the clock and version 1, spread-overridden by the caller metadata. -/
def DataLake.create (dp : String → Bool) (lake : DataLake) (freshId : String)
    (now : Nat) (name : String) (input : CreateInput) (opts : CreateOptions) :
    DataLake × UnifiedData :=
  let unified : UnifiedData :=
    match input with
    | CreateInput.unified u => u
    | CreateInput.rows rs =>
        { id := freshId
          name := name
          type := opts.type.getD "array"
          timestamp := now
          schema :=
            match opts.schema with
            | some s => s
            | none => SchemaInference.infer dp rs
          data := rs
          metadata := opts.metadata
          version := "1.0.0" }
  let id := if unified.id = "" then freshId else unified.id
  let unified := { unified with id := id }
  let lifecycle := mergeObj
    [("createdAt", Value.vint now), ("updatedAt", Value.vint now),
      ("version", Value.vint 1)] opts.metadata
  ({ lake with
      datasets := setKey lake.datasets id unified
      metadata := setKey lake.metadata id lifecycle },
    unified)

/-- The partial-update argument of `DataLake.update`: the dataset fields
the caller may override via the object spread over the serialized form.
A metadata key inside it never survives (the literal metadata entry is
written after the spread), and the id is always forced back. -/
structure UpdatePatch where
  name : Option String := none
  type : Option String := none
  schema : Option Schema := none
  data : Option (List Row) := none

/-- JS `existing.metadata.version || 0` followed by `+ 1`, on the numeric
versions the registry itself writes: an absent or non-integer or zero
version counts as zero.  (On a non-numeric truthy version the JS addition
would concatenate instead; such values never arise from this registry.) -/
def versionOrZero (metadata : List (String × Value)) : Int :=
  match lookupAssoc metadata "version" with
  | some (Value.vint n) => if n = 0 then 0 else n
  | _ => 0

/-- The fresh `UnifiedData` built inside source `DataLake.update`: the
patch spread over the serialized existing value, id forced back,
metadata merged from the existing metadata and the caller metadata with
the version bumped to (existing own version or 0) plus 1 and updatedAt
set to the clock. -/
def DataLake.rebuiltDataset (existing : UnifiedData) (id : String)
    (patch : UpdatePatch) (optMeta : List (String × Value)) (now : Nat) :
    UnifiedData :=
  { id := id
    name := (patch.name).getD existing.name
    type := (patch.type).getD existing.type
    timestamp := existing.timestamp
    schema := (patch.schema).getD existing.schema
    data := (patch.data).getD existing.data
    metadata := setKey (setKey (mergeObj existing.metadata optMeta)
      "version" (Value.vint (versionOrZero existing.metadata + 1)))
      "updatedAt" (Value.vint now)
    version := existing.version }

/-- Source `DataLake.update`: NotFound on an absent id, else store and
return the rebuilt dataset.  The lifecycle metadata Map is not
touched. -/
def DataLake.update (lake : DataLake) (id : String) (patch : UpdatePatch)
    (optMeta : List (String × Value)) (now : Nat) :
    Except JsError (DataLake × UnifiedData) :=
  match lookupAssoc lake.datasets id with
  | none => Except.error (JsError.error ("Dataset " ++ id ++ " not found"))
  | some existing =>
      let updated := DataLake.rebuiltDataset existing id patch optMeta now
      Except.ok ({ lake with datasets := setKey lake.datasets id updated }, updated)

/-- Source `DataLake.delete`: remove the id from both Maps and return
true, whether or not the id was present. -/
def DataLake.deleteDs (lake : DataLake) (id : String) : Bool × DataLake :=
  (true,
    { lake with
        datasets := eraseKey lake.datasets id
        metadata := eraseKey lake.metadata id })

/-- Source `DataLake.merge`: look up only the first listed id and throw
NotFound when it is absent (an empty list reads element 0 as undefined);
otherwise concatenate the rows of every listed dataset that exists, in
listed order, and create a merged dataset tagged with the source id
list. -/
def DataLake.merge (dp : String → Bool) (lake : DataLake) (freshId : String)
    (now : Nat) (ids : List String) (optName : Option String) :
    Except JsError (DataLake × UnifiedData) :=
  let firstLookup :=
    match ids with
    | [] => none
    | id0 :: _ => lookupAssoc lake.datasets id0
  match firstLookup with
  | none =>
      Except.error (JsError.error ("Dataset " ++
        (match ids with
          | [] => "undefined"
          | id0 :: _ => id0) ++ " not found"))
  | some _ =>
      let allData := (ids.map (fun id =>
        match lookupAssoc lake.datasets id with
        | some d => d.data
        | none => [])).flatten
      Except.ok (DataLake.create dp lake freshId now
        (optName.getD ("Merged " ++ toString ids.length ++ " datasets"))
        (CreateInput.rows allData)
        { type := some "merged"
          metadata := [("source_datasets", Value.varr (ids.map Value.vstr)),
            ("merged_at", Value.vint now)] })

theorem lookupAssoc_cons {α : Type} (a : String × α) (tl : List (String × α))
    (k : String) :
    lookupAssoc (a :: tl) k =
      if (a.1 == k) = true then some a.2 else lookupAssoc tl k := by
  by_cases h : (a.1 == k) = true
  · simp only [lookupAssoc, List.find?, h, if_true]
  · have h2 : (a.1 == k) = false := by
      cases hh : (a.1 == k)
      · rfl
      · exact absurd hh h
    simp [lookupAssoc, List.find?, h2]

theorem lookupAssoc_of_any_false {α : Type} (k : String) :
    ∀ (l : List (String × α)), (l.any (fun kv => kv.1 == k)) = false →
    lookupAssoc l k = none := by
  intro l
  induction l with
  | nil => intro _; rfl
  | cons a tl ih =>
    intro h
    simp only [List.any_cons, Bool.or_eq_false_iff] at h
    rw [lookupAssoc_cons]
    simp only [h.1, if_false]
    exact ih h.2

theorem lookupAssoc_append_single {α : Type} (k k2 : String) (v : α)
    (hne : k2 ≠ k) :
    ∀ (l : List (String × α)),
    lookupAssoc (l ++ [(k, v)]) k2 = lookupAssoc l k2 := by
  have hkk : (k == k2) = false :=
    beq_eq_false_iff_ne.mpr (fun h => hne h.symm)
  intro l
  induction l with
  | nil => simp [lookupAssoc, List.find?, hkk]
  | cons a tl ih =>
    rw [List.cons_append, lookupAssoc_cons, lookupAssoc_cons]
    by_cases h : (a.1 == k2) = true
    · simp only [h, if_true]
    · simp only [h, if_false]
      exact ih

theorem lookupAssoc_map_set {α : Type} (k k2 : String) (v : α) (hne : k2 ≠ k) :
    ∀ (l : List (String × α)),
    lookupAssoc (l.map (fun kv => if kv.1 == k then (kv.1, v) else kv)) k2 =
      lookupAssoc l k2 := by
  intro l
  induction l with
  | nil => rfl
  | cons a tl ih =>
    simp only [List.map_cons]
    by_cases hak : (a.1 == k) = true
    · have hk2 : (a.1 == k2) = false :=
        beq_eq_false_iff_ne.mpr (fun h => hne (h ▸ eq_of_beq hak))
      simp only [hak, if_true]
      rw [lookupAssoc_cons, lookupAssoc_cons]
      simp only [hk2, if_false]
      exact ih
    · have hak2 : (a.1 == k) = false := by
        cases hh : (a.1 == k)
        · rfl
        · exact absurd hh hak
      simp only [hak2, Bool.false_eq_true, if_false]
      rw [lookupAssoc_cons, lookupAssoc_cons]
      by_cases h : (a.1 == k2) = true
      · simp only [h, if_true]
      · simp only [h, if_false]
        exact ih

theorem lookupAssoc_map_set_self {α : Type} (k : String) (v : α) :
    ∀ (l : List (String × α)), (l.any (fun kv => kv.1 == k)) = true →
    lookupAssoc (l.map (fun kv => if kv.1 == k then (kv.1, v) else kv)) k =
      some v := by
  intro l
  induction l with
  | nil => intro h; cases h
  | cons a tl ih =>
    intro h
    simp only [List.map_cons]
    by_cases hak : (a.1 == k) = true
    · simp only [hak, if_true]
      rw [lookupAssoc_cons]
      simp only [hak, if_true]
    · have hak2 : (a.1 == k) = false := by
        cases hh : (a.1 == k)
        · rfl
        · exact absurd hh hak
      simp only [List.any_cons, hak2, Bool.false_or] at h
      have hred : (if (a.1 == k) = true then (a.1, v) else a) = a :=
        if_neg (by simp [hak2])
      rw [hred, lookupAssoc_cons]
      simp only [hak2, Bool.false_eq_true, if_false]
      exact ih h

theorem lookupAssoc_setKey_self {α : Type} (l : List (String × α)) (k : String)
    (v : α) : lookupAssoc (setKey l k v) k = some v := by
  simp only [setKey]
  by_cases hany : (l.any (fun kv => kv.1 == k)) = true
  · rw [if_pos hany]
    exact lookupAssoc_map_set_self k v l hany
  · have hanyf : (l.any (fun kv => kv.1 == k)) = false := by
      cases hh : (l.any (fun kv => kv.1 == k))
      · rfl
      · exact absurd hh hany
    rw [if_neg hany]
    have h1 : lookupAssoc l k = none := lookupAssoc_of_any_false k l hanyf
    induction l with
    | nil => simp [lookupAssoc, List.find?]
    | cons a tl ih =>
      simp only [List.any_cons, Bool.or_eq_false_iff] at hanyf
      rw [List.cons_append, lookupAssoc_cons]
      simp only [hanyf.1, if_false]
      rw [lookupAssoc_cons] at h1
      simp only [hanyf.1, if_false] at h1
      exact ih (by simp [hanyf.2]) (by simp [List.any_cons, hanyf.2]) h1

theorem lookupAssoc_setKey_ne {α : Type} (l : List (String × α)) (k k2 : String)
    (v : α) (hne : k2 ≠ k) :
    lookupAssoc (setKey l k v) k2 = lookupAssoc l k2 := by
  simp only [setKey]
  by_cases hany : (l.any (fun kv => kv.1 == k)) = true
  · rw [if_pos hany]
    exact lookupAssoc_map_set k k2 v hne l
  · rw [if_neg hany]
    exact lookupAssoc_append_single k k2 v hne l

theorem eraseKey_of_none {α : Type} (l : List (String × α)) (k : String)
    (h : lookupAssoc l k = none) : eraseKey l k = l := by
  induction l with
  | nil => rfl
  | cons a tl ih =>
    rw [lookupAssoc_cons] at h
    by_cases ha : (a.1 == k) = true
    · rw [if_pos ha] at h
      cases h
    · have ha2 : (a.1 == k) = false := by
        cases hh : (a.1 == k)
        · rfl
        · exact absurd hh ha
      rw [if_neg ha] at h
      simp only [eraseKey, List.filter_cons, ha2, Bool.not_false, if_true]
      have := ih h
      simp only [eraseKey] at this
      rw [this]

/-- Claim C10: DataLake.delete on an id absent from the registry is a
silent idempotent no-op: it returns true and leaves both the dataset Map
and the lifecycle metadata Map unchanged. -/
theorem datalake_delete_missing (lake : DataLake) (id : String)
    (h1 : lookupAssoc lake.datasets id = none)
    (h2 : lookupAssoc lake.metadata id = none) :
    DataLake.deleteDs lake id = (true, lake) := by
  simp only [DataLake.deleteDs]
  rw [eraseKey_of_none lake.datasets id h1, eraseKey_of_none lake.metadata id h2]

/-- Witness for Claim C10 on the empty registry: deleting a never-created
id returns true and changes nothing. -/
theorem datalake_delete_missing_witness :
    DataLake.deleteDs { name := "L", datasets := [], metadata := [] } "ghost" =
      (true, { name := "L", datasets := [], metadata := [] }) :=
  datalake_delete_missing { name := "L", datasets := [], metadata := [] }
    "ghost" rfl rfl

/-- The registry produced by creating one dataset d1 from a single raw
row, with default options, at clock 0 (the Claim C3 scenario). -/
def c3CreatedLake : DataLake :=
  (DataLake.create (fun _ => false) { name := "L", datasets := [], metadata := [] }
    "d1" 0 "D" (CreateInput.rows [[("a", Value.vint 1)]]) {}).1

/-- The result of the first update of d1 with an empty patch at clock 1
(the Claim C3 scenario). -/
def c3UpdateResult : Except JsError (DataLake × UnifiedData) :=
  DataLake.update c3CreatedLake "d1" {} [] 1

/-- Claim C3 counterexample: create records version 1 in the lifecycle
metadata Map, yet the first update computes the new version from the
dataset own metadata (which carries no version after create) and so
produces version 1 again, not 2: across the sequence create then update
the version does not increase by 1 from the version recorded at
create. -/
theorem datalake_update_version_counterexample :
    ((lookupAssoc c3CreatedLake.metadata "d1").bind
        (fun m => lookupAssoc m "version") = some (Value.vint 1)) ∧
    (c3UpdateResult.map (fun r => lookupAssoc r.2.metadata "version") =
      Except.ok (some (Value.vint 1))) ∧
    (c3UpdateResult.map (fun r => lookupAssoc r.2.metadata "version") ≠
      Except.ok (some (Value.vint 2))) := by
  refine ⟨rfl, rfl, ?_⟩
  intro h
  rw [show c3UpdateResult.map (fun r => lookupAssoc r.2.metadata "version") =
    Except.ok (some (Value.vint 1)) from rfl] at h
  injection h with h2
  injection h2 with h3
  injection h3 with h4
  exact absurd h4 (by decide)

/-- Claim C3 amended: update on an existing id always succeeds and sets
the version key of the new dataset metadata to one plus the version the
existing dataset carried in its own metadata (counting an absent or zero
version as zero), so a chain of updates yields versions 1, 2, 3 and so
on with no decrease or skip; the lifecycle metadata Map, where create
records version 1 (when the caller metadata carries no version key), is
not the starting point and is left untouched by update. -/
theorem datalake_update_version_amended (lake : DataLake) (id : String)
    (patch : UpdatePatch) (optMeta : List (String × Value)) (now : Nat)
    (ds : UnifiedData) (h : lookupAssoc lake.datasets id = some ds) :
    (∃ lake2 ds2,
      DataLake.update lake id patch optMeta now = Except.ok (lake2, ds2) ∧
      lookupAssoc ds2.metadata "version" =
        some (Value.vint (versionOrZero ds.metadata + 1)) ∧
      versionOrZero ds2.metadata = versionOrZero ds.metadata + 1 ∧
      lake2.metadata = lake.metadata) ∧
    (∀ dp lake0 freshId now0 nm rs,
      (lookupAssoc ((DataLake.create dp lake0 freshId now0 nm
          (CreateInput.rows rs) {}).1.metadata) freshId).bind
        (fun m => lookupAssoc m "version") = some (Value.vint 1)) := by
  constructor
  · have hv : lookupAssoc
        (DataLake.rebuiltDataset ds id patch optMeta now).metadata "version" =
        some (Value.vint (versionOrZero ds.metadata + 1)) := by
      simp only [DataLake.rebuiltDataset]
      rw [lookupAssoc_setKey_ne _ _ _ _ (by decide)]
      exact lookupAssoc_setKey_self _ _ _
    have hupd : DataLake.update lake id patch optMeta now =
        Except.ok ({ lake with datasets := setKey lake.datasets id (DataLake.rebuiltDataset ds id patch optMeta now) }, DataLake.rebuiltDataset ds id patch optMeta now) := by
      simp only [DataLake.update, h]
    refine ⟨_, _, hupd, hv, ?_, rfl⟩
    simp only [versionOrZero, hv]
    split
    · omega
    · rfl
  · intro dp lake0 freshId now0 nm rs
    simp only [DataLake.create, ite_self]
    rw [lookupAssoc_setKey_self]
    rfl

/-- Witness for Claim C3 amended: updating a dataset whose own metadata
carries version 3 yields version 4 and leaves the lifecycle Map alone. -/
theorem datalake_update_version_amended_witness :
    (∃ lake2 ds2,
      DataLake.update
        { name := "L",
          datasets := [("d1",
            { id := "d1", name := "D", type := "array", timestamp := 0,
              schema := { columns := [] }, data := [],
              metadata := [("version", Value.vint 3)], version := "1.0.0" })],
          metadata := [] } "d1" {} [] 5 = Except.ok (lake2, ds2) ∧
      lookupAssoc ds2.metadata "version" =
        some (Value.vint (versionOrZero [("version", Value.vint 3)] + 1)) ∧
      versionOrZero ds2.metadata = versionOrZero [("version", Value.vint 3)] + 1 ∧
      lake2.metadata = ([] : List (String × (List (String × Value))))) ∧
    (∀ dp lake0 freshId now0 nm rs,
      (lookupAssoc ((DataLake.create dp lake0 freshId now0 nm
          (CreateInput.rows rs) {}).1.metadata) freshId).bind
        (fun m => lookupAssoc m "version") = some (Value.vint 1)) :=
  datalake_update_version_amended
    { name := "L",
      datasets := [("d1",
        { id := "d1", name := "D", type := "array", timestamp := 0,
          schema := { columns := [] }, data := [],
          metadata := [("version", Value.vint 3)], version := "1.0.0" })],
      metadata := [] } "d1" {} [] 5
    { id := "d1", name := "D", type := "array", timestamp := 0,
      schema := { columns := [] }, data := [],
      metadata := [("version", Value.vint 3)], version := "1.0.0" } rfl

/-- The registry of the Claim C6 counterexample: only the id b exists. -/
def c6Lake : DataLake :=
  { name := "L",
    datasets := [("b",
      { id := "b", name := "B", type := "array", timestamp := 0,
        schema := { columns := [] }, data := [[("x", Value.vint 1)]],
        metadata := [], version := "1.0.0" })],
    metadata := [] }

/-- Claim C6 counterexample: the id list contains the valid id b, yet
merge throws NotFound because only the first listed id is checked and a
is absent, refuting the claim that merge succeeds whenever at least one
listed id is present. -/
theorem datalake_merge_counterexample :
    (lookupAssoc c6Lake.datasets "b").isSome = true ∧
    DataLake.merge (fun _ => false) c6Lake "m1" 0 ["a", "b"] none =
      Except.error (JsError.error "Dataset a not found") :=
  ⟨rfl, rfl⟩

/-- Claim C6 amended: merge checks only the first listed id.  It fails
with NotFound exactly when the id list is empty (reading element 0 as
undefined) or its first id is absent, even when later ids are valid; when
the first id is present it succeeds with a new dataset whose row sequence
concatenates, in listed order, the rows of every listed dataset that
exists, and whose metadata records the listed source ids. -/
theorem datalake_merge_amended (dp : String → Bool) (lake : DataLake)
    (freshId : String) (now : Nat) (ids : List String) (optName : Option String) :
    (ids = [] → DataLake.merge dp lake freshId now ids optName =
      Except.error (JsError.error "Dataset undefined not found")) ∧
    (∀ id0 rest, ids = id0 :: rest → lookupAssoc lake.datasets id0 = none →
      DataLake.merge dp lake freshId now ids optName =
        Except.error (JsError.error ("Dataset " ++ id0 ++ " not found"))) ∧
    (∀ id0 rest d0, ids = id0 :: rest → lookupAssoc lake.datasets id0 = some d0 →
      ∃ lake2 ds2, DataLake.merge dp lake freshId now ids optName =
        Except.ok (lake2, ds2) ∧
        ds2.data = (ids.map (fun id =>
          match lookupAssoc lake.datasets id with
          | some d => d.data
          | none => [])).flatten ∧
        lookupAssoc ds2.metadata "source_datasets" =
          some (Value.varr (ids.map Value.vstr))) := by
  refine ⟨?_, ?_, ?_⟩
  · intro he
    subst he
    rfl
  · intro id0 rest he hnone
    subst he
    simp only [DataLake.merge, hnone]
  · intro id0 rest d0 he hsome
    subst he
    simp only [DataLake.merge, hsome, DataLake.create]
    exact ⟨_, _, rfl, rfl, rfl⟩

/-- Witness for Claim C6 amended at the counterexample registry: merging
the singleton list b succeeds, concatenates the rows of b alone and tags
the result with the source list. -/
theorem datalake_merge_amended_witness :
    ∃ lake2 ds2, DataLake.merge (fun _ => false) c6Lake "m1" 0 ["b"] none =
      Except.ok (lake2, ds2) ∧
      ds2.data = ((["b"].map (fun id =>
        match lookupAssoc c6Lake.datasets id with
        | some d => d.data
        | none => [])).flatten) ∧
      lookupAssoc ds2.metadata "source_datasets" =
        some (Value.varr (["b"].map Value.vstr)) :=
  (datalake_merge_amended (fun _ => false) c6Lake "m1" 0 ["b"] none).2.2
    "b" [] _ rfl rfl

/-! ## ETL pipeline aggregation (src core etl module) -/

/-- JS `array.join("|||")` over already stringified parts. -/
def joinTripleBar : List String → String
  | [] => ""
  | [s] => s
  | s :: rest => s ++ "|||" ++ joinTripleBar rest

/-- JS `key.split("|||")` on the character list, scanning left to
right. -/
def splitTripleBarGo (cur : List Char) : List Char → List (List Char)
  | '|' :: '|' :: '|' :: rest => cur.reverse :: splitTripleBarGo [] rest
  | c :: rest => splitTripleBarGo (c :: cur) rest
  | [] => [cur.reverse]

/-- JS `key.split("|||")`. -/
def splitTripleBar (s : String) : List String :=
  (splitTripleBarGo [] s.data).map (fun cs => String.mk cs)

/-- One step of the grouping loop of the source aggregate execute
closure: push the row onto its key group, creating the group at the end
on first sight (JS Map insertion order). -/
def groupInsert (groups : List (String × List Row)) (key : String) (row : Row) :
    List (String × List Row) :=
  if groups.any (fun g => g.1 == key) then
    groups.map (fun g => if g.1 == key then (g.1, g.2 ++ [row]) else g)
  else groups ++ [(key, [row])]

/-- The execute closure of source `Pipeline.aggregate`.  With groupBy the
rows are partitioned by the bar-joined string of their groupBy values;
each group yields one row holding the split key parts (as strings) under
the groupBy names followed by each named aggregation applied to the
group rows.  Without groupBy, a single row of global aggregations. -/
def Pipeline.aggregateExecute (aggregations : List (String × (List Row → Value)))
    (groupBy : Option (List String)) (data : List Row) : List Row :=
  match groupBy with
  | some gb =>
      let groups := data.foldl (fun groups row =>
        groupInsert groups
          (joinTripleBar (gb.map (fun f => jsJoinElem (rowGet row f)))) row) []
      groups.map (fun g =>
        let keyParts := splitTripleBar g.1
        let base := (List.range gb.length).map (fun i =>
          (gb.getD i "", Value.vstr (keyParts.getD i "")))
        let aggPart := aggregations.map (fun a => (a.1, a.2 g.2))
        mergeObj base aggPart)
  | none => [aggregations.map (fun a => (a.1, a.2 data))]

/-- Source `Aggregators.COUNT`: the only aggregator whose arrow binds its
rows argument. -/
def Aggregators.COUNT : List Row → Value := fun rows => Value.vint rows.length

/-- Source `Aggregators.SUM`.  The source arrow is
(field) => rows.reduce(...): its body references the identifier rows,
which is bound nowhere in the module (COUNT, directly above, binds rows
as its own parameter), so by JS semantics the call SUM(field) evaluates
rows and throws ReferenceError before any aggregator value is produced.
AVG, MIN, MAX, FIRST, LAST, ARRAY and DISTINCT share the same unbound
reference. -/
def Aggregators.SUM (_field : String) : Except JsError (List Row → Value) :=
  Except.error (JsError.referenceError "rows is not defined")

/-- Modelled from the spec: the intended SUM aggregator of the spec
aggregation example, summing the numeric field over the rows of one
partition with 0 for a missing or non-numeric value.  It exists only to
compare the aggregate machinery against the spec example; the source SUM
never produces it. -/
def specSUM (field : String) : List Row → Value := fun rows =>
  Value.vint (rows.foldl (fun acc row =>
    acc + (match rowGet row field with
      | Value.vint n => n
      | _ => 0)) 0)

/-- The three rows of the spec aggregation example. -/
def c2ExampleRows : List Row :=
  [[("region", Value.vstr "N"), ("amount", Value.vint 10)],
    [("region", Value.vstr "N"), ("amount", Value.vint 5)],
    [("region", Value.vstr "S"), ("amount", Value.vint 7)]]

/-- The spec example aggregate({total: SUM(amount)}, groupBy [region])
over the example rows, with JS evaluation order: building the
aggregation object already calls SUM("amount"). -/
def c2SumExample : Except JsError (List Row) := do
  let total ← Aggregators.SUM "amount"
  pure (Pipeline.aggregateExecute [("total", total)] (some ["region"]) c2ExampleRows)

/-- Claim C2: the claim describes the clear intent and the code breaks
it: Aggregators.SUM references the unbound identifier rows, so the spec
example aggregate({total: SUM(amount)}, groupBy [region]) throws
ReferenceError instead of yielding the per-region sums; the grouping
machinery itself, paired with the intended summing aggregator modelled
from the spec, produces exactly the rows {region:N,total:15} and
{region:S,total:7}. -/
theorem pipeline_aggregate_sum_bug :
    c2SumExample = Except.error (JsError.referenceError "rows is not defined") ∧
    Pipeline.aggregateExecute [("total", specSUM "amount")] (some ["region"])
        c2ExampleRows =
      [[("region", Value.vstr "N"), ("total", Value.vint 15)],
        [("region", Value.vstr "S"), ("total", Value.vint 7)]] :=
  ⟨rfl, rfl⟩

/-! ## CSV adapter (src adapters csv module) -/

/-- The whitespace class of JS trim, restricted to the characters CSV
text can carry. -/
def jsIsWs (c : Char) : Bool :=
  c == ' ' || c == '\t' || c == '\n' || c == '\r'

/-- JS String.prototype.trim on a character list. -/
def jsTrim (cs : List Char) : List Char :=
  ((cs.dropWhile jsIsWs).reverse.dropWhile jsIsWs).reverse

/-- The line split of source parse: a newline, optionally preceded by a
carriage return, ends a line; a lone carriage return is ordinary text. -/
def splitLinesGo (cur : List Char) : List Char → List (List Char)
  | '\r' :: '\n' :: rest => cur.reverse :: splitLinesGo [] rest
  | '\n' :: rest => cur.reverse :: splitLinesGo [] rest
  | c :: rest => splitLinesGo (c :: cur) rest
  | [] => [cur.reverse]

/-- text.split over the line pattern. -/
def splitLines (text : List Char) : List (List Char) := splitLinesGo [] text

/-- firstLine.split(delim).length for a one-character delimiter. -/
def splitCount (delim : Char) (line : List Char) : Nat :=
  1 + line.countP (fun c => c == delim)

/-- The delimiter detection loop of source parse: among comma, semicolon,
tab and pipe, the first with the strictly largest split count of the
first line wins, starting from comma with count zero. -/
def detectDelimiter (firstLine : List Char) : Char :=
  ([',', ';', '\t', '|'].foldl (fun acc d =>
    let count := splitCount d firstLine
    if count > acc.1 then (count, d) else acc) ((0 : Nat), ',')).2

/-- Source CSVAdapter.parseLine: the quote-aware field scanner.  A quote
toggles quoting, except that a doubled quote inside quotes emits one
literal quote; an unquoted delimiter ends the field; every pushed field
is trimmed. -/
def parseLineGo (delim : Char) : Nat → Bool → List Char → List Char → List String
  | 0, _, cur, _ => [String.mk (jsTrim cur.reverse)]
  | _ + 1, _, cur, [] => [String.mk (jsTrim cur.reverse)]
  | fuel + 1, inQuotes, cur, c :: rest =>
    if c == '"' then
      if inQuotes then
        match rest with
        | c2 :: rest2 =>
            if c2 == '"' then parseLineGo delim fuel inQuotes ('"' :: cur) rest2
            else parseLineGo delim fuel false cur rest
        | [] => [String.mk (jsTrim cur.reverse)]
      else parseLineGo delim fuel true cur rest
    else if c == delim && !inQuotes then
      String.mk (jsTrim cur.reverse) :: parseLineGo delim fuel inQuotes [] rest
    else parseLineGo delim fuel inQuotes (c :: cur) rest

/-- Source CSVAdapter.parseLine entry point.  The scanner consumes at
least one character per step; passing the line length as fuel makes the
recursion structural without changing the computed value. -/
def CSVAdapter.parseLine (delim : Char) (line : List Char) : List String :=
  parseLineGo delim (line.length + 1) false [] line

/-- The anchored integer literal test of convertValue. -/
def isIntLit (cs : List Char) : Bool :=
  match cs with
  | '-' :: rest => !rest.isEmpty && rest.all (fun c => c.isDigit)
  | _ => !cs.isEmpty && cs.all (fun c => c.isDigit)

/-- After the leading digit: more digits, then a dot and one or more
digits. -/
def floatTail : List Char → Bool
  | '.' :: rest => !rest.isEmpty && rest.all (fun c => c.isDigit)
  | c :: rest => c.isDigit && floatTail rest
  | [] => false

/-- The anchored float literal test of convertValue: an optional minus,
one or more digits, a dot, one or more digits. -/
def isFloatLit (cs : List Char) : Bool :=
  match cs with
  | '-' :: body =>
      (match body with
        | c :: rest => c.isDigit && floatTail rest
        | [] => false)
  | c :: rest => c.isDigit && floatTail rest
  | [] => false

/-- Decimal digits to an integer, as parseInt does on a matched
literal. -/
def parseDigits (cs : List Char) : Int :=
  cs.foldl (fun acc c => acc * 10 + ((c.toNat : Int) - ('0'.toNat : Int))) 0

/-- parseInt on an anchored integer literal. -/
def parseIntLit (cs : List Char) : Int :=
  match cs with
  | '-' :: rest => - parseDigits rest
  | _ => parseDigits cs

/-- The options of source CSVAdapter.parse and convertValue, with the JS
truthiness defaults: detection and header and automatic typing are on
unless explicitly disabled, and the null replacement defaults to
null. -/
structure CsvOptions where
  detection : Bool := true
  hasHeader : Bool := true
  autoType : Bool := true
  nullValue : Option Value := none

/-- Source CSVAdapter.convertValue: an empty or missing field yields the
null replacement (null by default); with automatic typing an integer
literal parses to an integer, a float literal to a float (the model
keeps its literal), true and false case-insensitively to booleans;
anything else stays a string. -/
def CSVAdapter.convertValue (opts : CsvOptions) (value : Option String) : Value :=
  match value with
  | none => opts.nullValue.getD Value.vnull
  | some s =>
      if s.isEmpty then opts.nullValue.getD Value.vnull
      else if opts.autoType && isIntLit s.data then Value.vint (parseIntLit s.data)
      else if opts.autoType && isFloatLit s.data then Value.vfloat s
      else if opts.autoType && (s.data.map Char.toLower == "true".data) then
        Value.vbool true
      else if opts.autoType && (s.data.map Char.toLower == "false".data) then
        Value.vbool false
      else Value.vstr s

/-- Source CSVAdapter.parse: split the text into lines, detect the
delimiter on the first line unless disabled, parse the header line, then
parse every further nonblank line into a row keyed by the header (or by
positional column names without a header), converting each field.  The
adapter starts with delimiter delim0 (comma on a fresh adapter). -/
def CSVAdapter.parse (delim0 : Char) (text : String) (opts : CsvOptions) :
    List Row :=
  let lines := splitLines text.data
  if lines.isEmpty then []
  else
    let delim := if opts.detection then detectDelimiter (lines.headD []) else delim0
    let header := CSVAdapter.parseLine delim (lines.headD [])
    let rest := if opts.hasHeader then lines.drop 1 else lines
    let dataRows := rest.filter (fun l => !(jsTrim l).isEmpty)
    dataRows.map (fun l =>
      let values := CSVAdapter.parseLine delim l
      (List.range header.length).map (fun j =>
        let key := if opts.hasHeader then header.getD j "" else "column_" ++ toString j
        (key, CSVAdapter.convertValue opts (values.get? j))))

/-- Source CSVAdapter.escapeField: null and undefined become the empty
field; otherwise the stringified value, wrapped in quotes with inner
quotes doubled when it contains the delimiter, a newline or a quote. -/
def CSVAdapter.escapeField (delim : Char) (value : Value) : String :=
  match value with
  | Value.vnull => ""
  | v =>
      let str := jsString v
      if str.data.any (fun c => c == delim || c == '\n' || c == '"') then
        "\"" ++ String.mk (str.data.foldr (fun c acc =>
          if c == '"' then '"' :: '"' :: acc else c :: acc) []) ++ "\""
      else str

/-- Source CSVAdapter.write: empty input gives the empty text; otherwise
the first-row keys give the header line and every row contributes its
escaped values under those headers, with lines joined by newline. -/
def CSVAdapter.write (delim0 : Char) (data : List Row) (optDelim : Option Char) :
    String :=
  match data with
  | [] => ""
  | first :: _ =>
      let headers := first.map Prod.fst
      let delim := optDelim.getD delim0
      let sep := String.mk [delim]
      let headerLine := String.intercalate sep
        (headers.map (fun h => CSVAdapter.escapeField delim (Value.vstr h)))
      let rowLines := data.map (fun row =>
        String.intercalate sep
          (headers.map (fun h => CSVAdapter.escapeField delim (rowGet row h))))
      String.intercalate "\n" (headerLine :: rowLines)

/-- Claim C7: writing the row list with a = "x,y" and b = 1 through the
CSV adapter and parsing the produced text back with default options
restores a structurally equal row list: the embedded comma is quoted on
write and restored on read, and the integer 1 round-trips as the integer
1. -/
theorem csv_roundtrip :
    CSVAdapter.parse ','
      (CSVAdapter.write ',' [[("a", Value.vstr "x,y"), ("b", Value.vint 1)]] none)
      {} =
    [[("a", Value.vstr "x,y"), ("b", Value.vint 1)]] := rfl

/-! ## Stream processor (src performance module) -/

/-- The constructed state of source StreamProcessor.  The onError field
keeps the explicitly supplied handler, or none when the rethrowing
default was installed. -/
structure StreamProcessor (α β : Type) where
  chunkSize : Nat
  onChunk : List α → Nat → Nat → Except JsError (Option (List β))
  onComplete : List β → Except JsError Unit
  onError : Option (JsError → Except JsError Unit)

/-- Source StreamProcessor constructor: options.chunkSize || 1000 (a
missing or zero chunk size falls back to 1000) and the optional
callbacks with their defaults. -/
def mkStreamProcessor {α β : Type} (chunkSize : Option Nat)
    (onChunk : List α → Nat → Nat → Except JsError (Option (List β)))
    (onComplete : Option (List β → Except JsError Unit))
    (onError : Option (JsError → Except JsError Unit)) : StreamProcessor α β :=
  { chunkSize :=
      match chunkSize with
      | some n => if n = 0 then 1000 else n
      | none => 1000
    onChunk := onChunk
    onComplete := onComplete.getD (fun _ => Except.ok ())
    onError := onError }

/-- The chunk slicing of the source process loop: data.slice(i, i + n)
with i stepping by n.  Fuel equal to the data length bounds the loop;
the source loop can run forever only at chunk size zero, which the
constructor rules out. -/
def chunksGo {α : Type} (n : Nat) : Nat → List α → List (List α)
  | 0, _ => []
  | _, [] => []
  | fuel + 1, l => l.take n :: chunksGo n fuel (l.drop n)

/-- The chunk loop of source process: run the callback on every chunk
with its start index, collect returned values (an array return spreads,
a plain return appends, undefined adds nothing), and let a callback
error propagate — the loop body has no catch and never consults the
stored error handler. -/
def processGo {α β : Type} (sp : StreamProcessor α β) (total : Nat) :
    List (List α) → Nat → List β → Except JsError (List β)
  | [], _, acc => Except.ok acc
  | chunk :: restChunks, i, acc =>
      match sp.onChunk chunk i total with
      | Except.error e => Except.error e
      | Except.ok r =>
          processGo sp total restChunks (i + sp.chunkSize)
            (match r with
              | some vs => acc ++ vs
              | none => acc)

/-- Source StreamProcessor.process: the chunk loop, then the completion
callback, then the collected results. -/
def StreamProcessor.process {α β : Type} (sp : StreamProcessor α β)
    (data : List α) : Except JsError (List β) :=
  match processGo sp data.length (chunksGo sp.chunkSize data.length data) 0 [] with
  | Except.error e => Except.error e
  | Except.ok results =>
      match sp.onComplete results with
      | Except.error e => Except.error e
      | Except.ok _ => Except.ok results

/-- The Claim C8 counterexample processor: an explicit error handler
that swallows every error, and a chunk callback that always throws. -/
def c8Processor : StreamProcessor Nat Nat :=
  mkStreamProcessor (some 1)
    (fun _ _ _ => Except.error (JsError.error "chunk boom"))
    none
    (some (fun _ => Except.ok ()))

/-- Claim C8 counterexample: even with an explicit onError handler the
chunk-callback error propagates out of process — the handler is stored
by the constructor but never invoked by process — refuting the claim
that the error is routed to the handler instead of the caller. -/
theorem streamprocessor_onerror_counterexample :
    c8Processor.onError.isSome = true ∧
    c8Processor.process [0] = Except.error (JsError.error "chunk boom") :=
  ⟨rfl, rfl⟩

theorem processGo_onerror_independent {α β : Type} (sp : StreamProcessor α β)
    (h : Option (JsError → Except JsError Unit)) (total : Nat) :
    ∀ (chunks : List (List α)) (i : Nat) (acc : List β),
    processGo { sp with onError := h } total chunks i acc =
      processGo sp total chunks i acc := by
  intro chunks
  induction chunks with
  | nil => intro i acc; rfl
  | cons chunk restChunks ih =>
    intro i acc
    simp only [processGo]
    cases sp.onChunk chunk i total with
    | error e => rfl
    | ok r => exact ih (i + sp.chunkSize) _

/-- Claim C8 amended: process never consults the stored onError handler:
its result is the same whatever handler (or none) was supplied, and a
chunk callback that throws makes process propagate that error to the
caller, explicit handler or not. -/
theorem streamprocessor_onerror_amended {α β : Type}
    (sp : StreamProcessor α β) (h1 h2 : Option (JsError → Except JsError Unit))
    (data : List α) :
    (StreamProcessor.process { sp with onError := h1 } data =
      StreamProcessor.process { sp with onError := h2 } data) ∧
    (∀ (e : JsError) (cs : Option Nat)
      (oc : Option (List β → Except JsError Unit))
      (oe : Option (JsError → Except JsError Unit)),
      data ≠ [] →
      StreamProcessor.process
        (mkStreamProcessor cs (fun _ _ _ => Except.error e) oc oe) data =
        Except.error e) := by
  constructor
  · simp only [StreamProcessor.process]
    rw [processGo_onerror_independent sp h1, processGo_onerror_independent sp h2]
  · intro e cs oc oe hne
    match data, hne with
    | d :: rest, _ =>
      simp only [StreamProcessor.process, List.length_cons, chunksGo, processGo,
        mkStreamProcessor]

/-- Witness for Claim C8 amended: a three-element input with chunk size
two and a throwing callback makes process return the callback error even
though an explicit swallowing handler was supplied. -/
theorem streamprocessor_onerror_amended_witness :
    StreamProcessor.process
      (mkStreamProcessor (α := Nat) (β := Nat) (some 2)
        (fun _ _ _ => Except.error (JsError.error "boom"))
        none (some (fun _ => Except.ok ()))) [0, 1, 2] =
      Except.error (JsError.error "boom") :=
  (streamprocessor_onerror_amended (β := Nat) c8Processor none none
    [0, 1, 2]).2 (JsError.error "boom") (some 2) none
    (some (fun _ => Except.ok ())) (by decide)

/-! ## Page loader (src performance module) -/

/-- The cache entry stored by source loadPage: the object with data,
timestamp and pageIndex fields, which is also what cache.get hands
back. -/
def pageCacheEntry (d : Value) (t : Nat) (p : Nat) : Value :=
  Value.vobj [("data", d), ("timestamp", Value.vint t), ("pageIndex", Value.vint p)]

/-- The mutable state of a source PageLoader (cache, loadedPages,
loadingPages) plus a count of dataLoader invocations, recording the
fetch side effect for the model. -/
structure PLState where
  cache : List (Nat × Value)
  loadedPages : List Nat
  loadingPages : List Nat
  fetchCount : Nat

/-- Map lookup on the page-indexed cache. -/
def lookupNat (l : List (Nat × Value)) (k : Nat) : Option Value :=
  match l.find? (fun kv => kv.1 == k) with
  | some kv => some kv.2
  | none => none

/-- Map.set on the page-indexed cache. -/
def setNat (l : List (Nat × Value)) (k : Nat) (v : Value) : List (Nat × Value) :=
  if l.any (fun kv => kv.1 == k) then
    l.map (fun kv => if kv.1 == k then (kv.1, v) else kv)
  else l ++ [(k, v)]

/-- Set.delete on a page set. -/
def removeNat (l : List Nat) (k : Nat) : List Nat :=
  l.filter (fun x => !(x == k))

/-- Set.add on a page set (insertion order, no duplicates). -/
def addNat (l : List Nat) (k : Nat) : List Nat :=
  if l.any (fun x => x == k) then l else l ++ [k]

/-- The branch a caller of source loadPage takes on entry. -/
inductive LoadAction where
  | returnCached : Value → LoadAction
  | waitForInflight : LoadAction
  | startFetch : LoadAction

/-- The entry checks of source loadPage: a loaded page returns the cache
entry at once; a page already in loadingPages is awaited by polling;
otherwise this caller starts the fetch. -/
def PageLoader.dispatch (st : PLState) (p : Nat) : LoadAction :=
  if st.loadedPages.any (fun x => x == p) then
    LoadAction.returnCached ((lookupNat st.cache p).getD Value.vnull)
  else if st.loadingPages.any (fun x => x == p) then
    LoadAction.waitForInflight
  else LoadAction.startFetch

/-- Source loadPage up to the dataLoader await: mark the page loading
and invoke the loader (counted by the model). -/
def PageLoader.beginFetch (st : PLState) (p : Nat) : PLState :=
  { st with
      loadingPages := addNat st.loadingPages p
      fetchCount := st.fetchCount + 1 }

/-- Source cleanupCache: evict every cache entry (and its loadedPages
marker) outside the window of the current page and its neighbours.  On
the Nat model the lower neighbour of page 0 is 0 itself, which keeps the
same pages as the JS set containing the absent key -1. -/
def PageLoader.cleanupCache (st : PLState) (p : Nat) : PLState :=
  let keep := fun (k : Nat) => k == p - 1 || k == p || k == p + 1
  let evicted := st.cache.filter (fun kv => !(keep kv.1))
  { st with
      cache := st.cache.filter (fun kv => keep kv.1)
      loadedPages := st.loadedPages.filter (fun x =>
        !(evicted.any (fun kv => kv.1 == x))) }

/-- Source loadPage resumption after the fetch resolves with data d at
time t: store the cache entry, mark the page loaded, run cleanupCache,
release the loading marker (the finally clause), and hand the bare data
to this caller. -/
def PageLoader.finishFetch (st : PLState) (p : Nat) (d : Value) (t : Nat) :
    PLState × Value :=
  let st1 := { st with
      cache := setNat st.cache p (pageCacheEntry d t p)
      loadedPages := addNat st.loadedPages p }
  let st2 := PageLoader.cleanupCache st1 p
  let st3 := { st2 with loadingPages := removeNat st2.loadingPages p }
  (st3, d)

/-- The waiting caller of source loadPage: once the loading marker is
gone, it returns cache.get(pageIndex) — the whole entry object. -/
def PageLoader.joinResult (st : PLState) (p : Nat) : Value :=
  (lookupNat st.cache p).getD Value.vnull

/-- The outcome of the two-caller scenario: which branch each caller
took, what each received, and the final loader state. -/
structure ScenarioOutcome where
  action1 : LoadAction
  action2 : LoadAction
  result1 : Value
  result2 : Value
  finalState : PLState

/-- The canonical single-threaded interleaving of Claim C9: caller one
enters on a fresh loader and starts the fetch; caller two enters for the
same page while that fetch is pending and hits the wait branch
(performing no fetch of its own); the fetch resolves with data d at time
t and caller one finishes; caller two wakes, finds the loading marker
gone and reads the cache entry. -/
def PageLoader.concurrentScenario (p : Nat) (d : Value) (t : Nat) :
    ScenarioOutcome :=
  let st0 : PLState :=
    { cache := [], loadedPages := [], loadingPages := [], fetchCount := 0 }
  let a1 := PageLoader.dispatch st0 p
  let st1 := PageLoader.beginFetch st0 p
  let a2 := PageLoader.dispatch st1 p
  let fin := PageLoader.finishFetch st1 p d t
  let r2 := PageLoader.joinResult fin.1 p
  { action1 := a1, action2 := a2, result1 := fin.2, result2 := r2,
    finalState := fin.1 }

/-- Claim C9 counterexample: on page 3 with fetched data the string
page3, exactly one fetch is performed but the two callers do not both
receive the fetched page data: the second caller receives the cache
entry object wrapping it, not the data itself. -/
theorem pageloader_join_counterexample :
    (PageLoader.concurrentScenario 3 (Value.vstr "page3") 7).finalState.fetchCount
      = 1 ∧
    (PageLoader.concurrentScenario 3 (Value.vstr "page3") 7).result1 =
      Value.vstr "page3" ∧
    (PageLoader.concurrentScenario 3 (Value.vstr "page3") 7).result2 ≠
      Value.vstr "page3" := by
  refine ⟨rfl, rfl, ?_⟩
  intro h
  rw [show (PageLoader.concurrentScenario 3 (Value.vstr "page3") 7).result2 =
    pageCacheEntry (Value.vstr "page3") 7 3 from rfl] at h
  exact Value.noConfusion h

/-- Claim C9 amended: in the concurrent same-page scenario the first
caller starts the single fetch, the second caller finds the page in
loadingPages and joins the in-flight fetch without triggering a
duplicate, exactly one dataLoader invocation happens in total, and both
callers are served from the single fetch — but not with the same shape:
the first caller receives the bare page data while the second receives
the cache entry object with data, timestamp and pageIndex fields. -/
theorem pageloader_join_amended (p : Nat) (d : Value) (t : Nat) :
    (PageLoader.concurrentScenario p d t).action1 = LoadAction.startFetch ∧
    (PageLoader.concurrentScenario p d t).action2 = LoadAction.waitForInflight ∧
    (PageLoader.concurrentScenario p d t).finalState.fetchCount = 1 ∧
    (PageLoader.concurrentScenario p d t).result1 = d ∧
    (PageLoader.concurrentScenario p d t).result2 = pageCacheEntry d t p := by
  refine ⟨rfl, ?_, rfl, rfl, ?_⟩
  · simp [PageLoader.concurrentScenario, PageLoader.dispatch,
      PageLoader.beginFetch, addNat]
  · simp [PageLoader.concurrentScenario, PageLoader.dispatch,
      PageLoader.beginFetch, PageLoader.finishFetch, PageLoader.cleanupCache,
      PageLoader.joinResult, addNat, setNat, removeNat, lookupNat,
      pageCacheEntry, List.find?]
